import Mathlib

/-!
Shallow embedding of `src/watcher.py`, a periodic system-resource sampler
that appends CPU/memory utilization rows to a CSV log file.

Modelling conventions:
* Percentages are rationals (the program never computes with them, it only
  passes them through, so any ordered field representation is faithful).
* Timestamps are naturals (the program only formats `datetime.now()`; the
  claims concern ordering, which the formatting preserves at second
  resolution).
* The CSV file handle is a pair of row lists: `disk` (durably on disk) and
  `buffer` (written via `csv.writer.writerow` but not yet flushed — CPython
  file objects are block-buffered and the script passes no buffering
  argument and calls no `flush`). Closing the handle (the `with` block
  exit) flushes the buffer to disk.
* The psutil calls are modelled by their outcome: each of
  `psutil.cpu_percent(interval=1)` and `psutil.virtual_memory().percent`
  either returns a value or raises an exception caught by
  `except Exception`.
* Every `print` is one constructor of `LogLine`, the operational log.
-/

namespace Watcher

/-- One row of the CSV store: the header row `['Timestamp', 'CPU Usage (%)',
'Memory Usage (%)']`, or a data row `[timestamp, cpu_usage, memory_usage]`.
The data fields are `Option ℚ` because the Python values handed to
`writerow` are `Optional[float]` (the loop guard is what rules `None` out). -/
inductive Row where
  | header : Row
  | data : Nat → Option ℚ → Option ℚ → Row
deriving DecidableEq

/-- The open CSV file handle: rows durably on disk and rows sitting in the
runtime write buffer (written, not yet flushed). -/
structure CsvFile where
  disk : List Row
  buffer : List Row
deriving DecidableEq

/-- `csv_writer.writerow(row)`: appends one row to the runtime buffer. -/
def writerow (f : CsvFile) (r : Row) : CsvFile :=
  { f with buffer := f.buffer ++ [r] }

/-- Closing the file handle (exit of the `with open(...)` block): the
buffered rows are flushed to disk. -/
def closeFile (f : CsvFile) : CsvFile :=
  { disk := f.disk ++ f.buffer, buffer := [] }

/-- Outcome of one psutil query: a value, or an exception (all psutil errors
are `Exception` subclasses, caught by the `except Exception` clause). -/
inductive QueryResult where
  | ok : ℚ → QueryResult
  | raises : String → QueryResult
deriving DecidableEq

/-- The platform facility consumed by `get_system_stats` on one tick: the
outcomes of `psutil.cpu_percent(interval=1)` and of
`psutil.virtual_memory().percent`. -/
structure Psutil where
  cpu_percent : QueryResult
  virtual_memory : QueryResult
deriving DecidableEq

/-- One operational-log line; each constructor corresponds to one `print`
statement of `watcher.py`. -/
inductive LogLine where
  | startBanner : LogLine
  | pressCtrlC : LogLine
  | headerWritten : LogLine
  | statsError : String → LogLine
  | logged : Nat → Option ℚ → Option ℚ → LogLine
  | writeError : String → LogLine
  | failedToRetrieve : Nat → LogLine
  | stoppedByUser : LogLine
  | unexpectedError : String → LogLine
  | exitingScript : LogLine
deriving DecidableEq

/-- `get_system_stats()` (watcher.py lines 12-32): queries CPU then memory
inside `try`; any exception from either call is caught and converted into
the failure indicator `(None, None)` after printing a diagnostic. Returns
the result pair together with the operational-log lines it printed. -/
def get_system_stats (p : Psutil) : (Option ℚ × Option ℚ) × List LogLine :=
  match p.cpu_percent with
  | QueryResult.raises e => ((none, none), [LogLine.statsError e])
  | QueryResult.ok cpu =>
    match p.virtual_memory with
    | QueryResult.raises e => ((none, none), [LogLine.statsError e])
    | QueryResult.ok mem => ((some cpu, some mem), [])

/-- Input driving one iteration of the `while True` loop: the psutil
outcomes, the wall-clock value read by `datetime.now()` during this tick,
and whether `file_writer.writerow` raises (`some e`) or succeeds (`none`). -/
structure TickInput where
  psutil : Psutil
  now : Nat
  writeFail : Option String
deriving DecidableEq

/-- `write_log_entry(file_writer, cpu_usage, memory_usage)` (watcher.py
lines 34-48): takes the current timestamp, then tries to append the row; a
raised exception is caught and reported, leaving the file unchanged. No
flush is performed in either case. -/
def write_log_entry (f : CsvFile) (now : Nat) (cpu mem : Option ℚ)
    (writeFail : Option String) : CsvFile × List LogLine :=
  let timestamp := now
  match writeFail with
  | none => (writerow f (Row.data timestamp cpu mem), [LogLine.logged timestamp cpu mem])
  | some e => (f, [LogLine.writeError e])

/-- The body of the `while True` loop (watcher.py lines 70-76): sample, and
either append a row (both values present) or print a failure notice tagged
with the current timestamp. The trailing `time.sleep` changes no state. -/
def loop_body (f : CsvFile) (t : TickInput) : CsvFile × List LogLine :=
  let r := get_system_stats t.psutil
  match r.1 with
  | (some c, some m) =>
    let w := write_log_entry f t.now (some c) (some m) t.writeFail
    (w.1, r.2 ++ w.2)
  | _ => (f, r.2 ++ [LogLine.failedToRetrieve t.now])

/-- The `while True` loop run over a finite schedule of tick inputs (the
ticks that complete before the interrupt arrives). -/
def run_loop (f : CsvFile) (ticks : List TickInput) : CsvFile × List LogLine :=
  match ticks with
  | [] => (f, [])
  | t :: rest =>
    let s := loop_body f t
    let r := run_loop s.1 rest
    (r.1, s.2 ++ r.2)

/-- Why the loop stopped: a `KeyboardInterrupt` (Ctrl+C), or any other
unexpected exception reaching the top-level `except Exception`. -/
inductive StopCause where
  | keyboardInterrupt : StopCause
  | unexpected : String → StopCause
deriving DecidableEq

/-- The observable result of one process run: the closed log file, the
operational log, and the process exit status. -/
structure RunResult where
  finalFile : CsvFile
  oplog : List LogLine
  exitCode : Nat
deriving DecidableEq

/-- The header rows `startup` contributes: `[Row.header]` exactly when
`not file_exists or os.path.getsize(LOG_FILE_NAME) == 0` holds, where
absence of the store is `none` and its content otherwise is the row list
(a CSV row is at least one byte, so size zero is the empty row list). -/
def headerPart (existing : Option (List Row)) : List Row :=
  if !existing.isSome || (existing.getD []).isEmpty then [Row.header] else []

/-- `main()` (watcher.py lines 50-87) for one process run, driven by the
prior on-disk store content (`none` = file absent), the completed tick
inputs, and the cause that stops the loop. The banner prints, then the
file is opened for append (created if absent), the header is written iff
the file was absent or of size zero, the loop runs, the `with` block closes
the file as the stopping exception propagates, the cause-specific notice
and the `finally` notice print, and `main` returns — so the process exits
with status 0. -/
def main (existing : Option (List Row)) (ticks : List TickInput)
    (cause : StopCause) : RunResult :=
  let banner : List LogLine := [LogLine.startBanner, LogLine.pressCtrlC]
  let file_exists : Bool := existing.isSome
  let f0 : CsvFile := { disk := existing.getD [], buffer := [] }
  let afterHeader : CsvFile × List LogLine :=
    if !file_exists || f0.disk.isEmpty then
      (writerow f0 Row.header, [LogLine.headerWritten])
    else
      (f0, [])
  let l := run_loop afterHeader.1 ticks
  let closed := closeFile l.1
  let causeLine : LogLine :=
    match cause with
    | StopCause.keyboardInterrupt => LogLine.stoppedByUser
    | StopCause.unexpected e => LogLine.unexpectedError e
  { finalFile := closed
    oplog := banner ++ afterHeader.2 ++ l.2 ++ [causeLine, LogLine.exitingScript]
    exitCode := 0 }

/-- A sequence of process restarts against the same store: each run starts
from the on-disk content the previous run left behind (the store is never
truncated externally). -/
def restart_runs (existing : Option (List Row))
    (rs : List (List TickInput × StopCause)) : Option (List Row) :=
  match rs with
  | [] => existing
  | (ticks, cause) :: rest =>
    restart_runs (some (main existing ticks cause).finalFile.disk) rest

/-- The data rows a schedule of ticks successfully appends, in order: one
row per tick whose provider call succeeds and whose `writerow` succeeds. -/
def rowsWritten (ticks : List TickInput) : List Row :=
  ticks.filterMap fun t =>
    match (get_system_stats t.psutil).1, t.writeFail with
    | (some c, some m), none => some (Row.data t.now (some c) (some m))
    | _, _ => none

/-- Whether a row is a data row (not the header). -/
def isData : Row → Bool
  | Row.header => false
  | Row.data _ _ _ => true

/-- The timestamp of a row (the header carries none; it reads as 0). -/
def rowTimestamp : Row → Nat
  | Row.header => 0
  | Row.data n _ _ => n

/-- Whether a data row has both fields present (the header passes). -/
def rowFieldsPresent : Row → Bool
  | Row.header => true
  | Row.data _ c m => c.isSome && m.isSome

/-- Whether every value a row carries lies in [0, 100] (the header and
absent fields pass). -/
def rowInRange : Row → Bool
  | Row.header => true
  | Row.data _ c m =>
    (match c with
     | none => true
     | some x => decide (0 ≤ x) && decide (x ≤ 100)) &&
    (match m with
     | none => true
     | some x => decide (0 ≤ x) && decide (x ≤ 100))

/-- The provider contract on one tick: every value a psutil query returns
successfully lies in [0, 100]. -/
def providerContract (t : TickInput) : Bool :=
  (match t.psutil.cpu_percent with
   | QueryResult.ok v => decide (0 ≤ v) && decide (v ≤ 100)
   | QueryResult.raises _ => true) &&
  (match t.psutil.virtual_memory with
   | QueryResult.ok v => decide (0 ≤ v) && decide (v ≤ 100)
   | QueryResult.raises _ => true)

/-! ### Characterization lemmas -/

/-- The file state after one loop iteration: the data row is buffered
exactly when the provider call and the write both succeed. -/
theorem loop_body_fst (f : CsvFile) (t : TickInput) :
    (loop_body f t).1 =
      match (get_system_stats t.psutil).1, t.writeFail with
      | (some c, some m), none => writerow f (Row.data t.now (some c) (some m))
      | _, _ => f := by
  rcases hq : (get_system_stats t.psutil).1 with ⟨_ | c, _ | m⟩ <;>
    rcases hw : t.writeFail with _ | e <;>
      simp [loop_body, write_log_entry, hq, hw]

/-- The file state after the whole loop: the disk is untouched and the
buffer has gained exactly the successfully written rows, in order. -/
theorem run_loop_fst (f : CsvFile) (ticks : List TickInput) :
    (run_loop f ticks).1 = ⟨f.disk, f.buffer ++ rowsWritten ticks⟩ := by
  induction ticks generalizing f with
  | nil => simp [run_loop, rowsWritten]
  | cons t rest ih =>
    have hstep : (run_loop f (t :: rest)).1 = (run_loop (loop_body f t).1 rest).1 := rfl
    rw [hstep, ih, loop_body_fst]
    rcases hq : (get_system_stats t.psutil).1 with ⟨_ | c, _ | m⟩ <;>
      rcases hw : t.writeFail with _ | e <;>
        simp [rowsWritten, List.filterMap_cons, hq, hw, writerow]

/-- The closed store a run leaves behind: prior content, then the header if
it was written, then the successfully written rows, with nothing buffered. -/
theorem main_finalFile (existing : Option (List Row)) (ticks : List TickInput)
    (cause : StopCause) :
    (main existing ticks cause).finalFile =
      ⟨existing.getD [] ++ headerPart existing ++ rowsWritten ticks, []⟩ := by
  rcases existing with _ | (_ | ⟨r, l⟩) <;>
    simp [main, headerPart, run_loop_fst, closeFile, writerow]

/-- A successful result of `get_system_stats` comes from both psutil
queries returning exactly those values. -/
theorem get_system_stats_ok (p : Psutil) (c m : ℚ)
    (h : (get_system_stats p).1 = (some c, some m)) :
    p.cpu_percent = QueryResult.ok c ∧ p.virtual_memory = QueryResult.ok m := by
  rcases hc : p.cpu_percent with v | e
  · rcases hm : p.virtual_memory with w | e2
    · simp only [get_system_stats, hc, hm, Prod.mk.injEq, Option.some.injEq] at h
      exact ⟨by rw [h.1], by rw [h.2]⟩
    · simp [get_system_stats, hc, hm] at h
  · simp [get_system_stats, hc] at h

/-- Every row in `rowsWritten` comes from a tick whose provider call and
write both succeeded, and records that tick's timestamp and values. -/
theorem mem_rowsWritten (r : Row) (ticks : List TickInput)
    (h : r ∈ rowsWritten ticks) :
    ∃ t ∈ ticks, ∃ c m, (get_system_stats t.psutil).1 = (some c, some m) ∧
      t.writeFail = none ∧ r = Row.data t.now (some c) (some m) := by
  simp only [rowsWritten, List.mem_filterMap] at h
  obtain ⟨t, ht, hmatch⟩ := h
  rcases hq : (get_system_stats t.psutil).1 with ⟨_ | c, _ | m⟩ <;>
    rcases hw : t.writeFail with _ | e <;>
      simp [hq, hw] at hmatch
  exact ⟨t, ht, c, m, hq, hw, hmatch.symm⟩

/-- The timestamps of the rows written are a sublist of the tick clock
readings, in order. -/
theorem rowsWritten_timestamps_sublist (ticks : List TickInput) :
    ((rowsWritten ticks).map rowTimestamp).Sublist (ticks.map TickInput.now) := by
  induction ticks with
  | nil => simp [rowsWritten]
  | cons t rest ih =>
    simp only [rowsWritten, List.filterMap_cons, List.map_cons]
    rcases hq : (get_system_stats t.psutil).1 with ⟨_ | c, _ | m⟩ <;>
      rcases hw : t.writeFail with _ | e <;>
        simp only [List.map_cons, rowTimestamp] <;>
          first
          | exact List.Sublist.cons t.now ih
          | exact List.Sublist.cons₂ t.now ih

/-! ### Claim theorems -/

/-- C2. No-row-on-failure: on every tick where `get_system_stats` returns
the failure indicator `(None, None)`, the loop body leaves the log file
completely unchanged (nothing reaches the disk or even the write buffer)
and emits on the operational log, after any diagnostic the provider printed,
a failure notice tagged with the tick's current timestamp. -/
theorem no_row_on_failure (f : CsvFile) (t : TickInput)
    (h : (get_system_stats t.psutil).1 = (none, none)) :
    (loop_body f t).1 = f ∧
    (loop_body f t).2 =
      (get_system_stats t.psutil).2 ++ [LogLine.failedToRetrieve t.now] := by
  constructor <;> simp [loop_body, h]

/-- Witness for `no_row_on_failure` at a concrete failing tick. -/
theorem no_row_on_failure_witness :
    ((get_system_stats ⟨QueryResult.raises "os error", QueryResult.ok 1⟩).1 =
      (none, none)) ∧
    ((loop_body ⟨[Row.header], []⟩
        ⟨⟨QueryResult.raises "os error", QueryResult.ok 1⟩, 7, none⟩).1 =
          ⟨[Row.header], []⟩ ∧
      (loop_body ⟨[Row.header], []⟩
        ⟨⟨QueryResult.raises "os error", QueryResult.ok 1⟩, 7, none⟩).2 =
          (get_system_stats
            ⟨QueryResult.raises "os error", QueryResult.ok 1⟩).2 ++
            [LogLine.failedToRetrieve 7]) :=
  ⟨by decide,
   no_row_on_failure ⟨[Row.header], []⟩
     ⟨⟨QueryResult.raises "os error", QueryResult.ok 1⟩, 7, none⟩ (by decide)⟩

/-- C3. The provider adapter never propagates a fault: for every outcome of
the underlying psutil queries, including any exception either of them
raises, `get_system_stats` is a total function returning either a pair of
values or the failure indicator `(None, None)`. -/
theorem get_system_stats_total (p : Psutil) :
    (∃ c m, (get_system_stats p).1 = (some c, some m)) ∨
    (get_system_stats p).1 = (none, none) := by
  rcases hc : p.cpu_percent with v | e
  · rcases hm : p.virtual_memory with w | e2
    · exact Or.inl ⟨v, w, by simp [get_system_stats, hc, hm]⟩
    · exact Or.inr (by simp [get_system_stats, hc, hm])
  · exact Or.inr (by simp [get_system_stats, hc])

/-- C4, counterexample. The claim asserts that after every successful
append the store is flushed before the inter-tick suspension begins. At a
concrete successful tick (provider returns (10, 20), `writerow` succeeds),
the point at which `time.sleep` starts still has the freshly appended row
in the write buffer and not on disk: `write_log_entry` performs no flush. -/
theorem flush_per_write_counterexample :
    (loop_body ⟨[], [Row.header]⟩
        ⟨⟨QueryResult.ok 10, QueryResult.ok 20⟩, 100, none⟩).1.buffer ≠ [] ∧
    Row.data 100 (some 10) (some 20) ∉
      (loop_body ⟨[], [Row.header]⟩
        ⟨⟨QueryResult.ok 10, QueryResult.ok 20⟩, 100, none⟩).1.disk := by
  decide

/-- C4, amended. No per-write flush occurs: a successfully appended row
stays in the runtime write buffer during the inter-tick suspension, and
the rows become durable only when the `with` block closes the file at
process termination, at which point the closed store holds the prior
content, then the header if one was written, then every successfully
written row in order, with an empty buffer. -/
theorem durable_only_on_close (existing : Option (List Row))
    (ticks : List TickInput) (cause : StopCause) :
    (main existing ticks cause).finalFile.buffer = [] ∧
    (main existing ticks cause).finalFile.disk =
      existing.getD [] ++ headerPart existing ++ rowsWritten ticks := by
  rw [main_finalFile]
  exact ⟨rfl, rfl⟩

/-- Auxiliary: the last element of the operational log shape produced by
`main` is its final entry. -/
theorem oplog_getLast_aux (xs : List LogLine) (c e : LogLine) :
    (xs ++ [c, e]).getLast? = some e := by
  rw [show ([c, e] : List LogLine) = [c] ++ [e] from rfl]
  rw [← List.append_assoc, List.getLast?_concat]

/-- C9. Graceful termination with success status: whether the loop stops
on a `KeyboardInterrupt` or on any other unexpected exception, the store
handle is closed (its buffer is flushed and empty), the closing notice of
the `finally` block is the last operational-log line, and the process
exit status is 0 in both cases. -/
theorem graceful_exit (existing : Option (List Row)) (ticks : List TickInput)
    (cause : StopCause) :
    (main existing ticks cause).exitCode = 0 ∧
    (main existing ticks cause).finalFile.buffer = [] ∧
    (main existing ticks cause).oplog.getLast? = some LogLine.exitingScript := by
  refine ⟨rfl, ?_, ?_⟩
  · rw [main_finalFile]
  · rcases cause <;> simp only [main] <;> exact oplog_getLast_aux _ _ _

/-- C5. Persistence failures are non-fatal: on a tick whose provider call
succeeds but whose `writerow` raises, the file is unchanged, the error is
reported on the operational log, and the loop processes the remaining
ticks exactly as it would have from the same state — a write failure never
terminates the sampling loop. -/
theorem write_failure_nonfatal (f : CsvFile) (t : TickInput)
    (rest : List TickInput) (c m : ℚ) (e : String)
    (hq : (get_system_stats t.psutil).1 = (some c, some m))
    (hw : t.writeFail = some e) :
    (loop_body f t).1 = f ∧
    LogLine.writeError e ∈ (loop_body f t).2 ∧
    run_loop f (t :: rest) =
      ((run_loop f rest).1, (loop_body f t).2 ++ (run_loop f rest).2) := by
  have h1 : loop_body f t =
      (f, (get_system_stats t.psutil).2 ++ [LogLine.writeError e]) := by
    simp [loop_body, write_log_entry, hq, hw]
  have h2 : run_loop f (t :: rest) =
      ((run_loop (loop_body f t).1 rest).1,
        (loop_body f t).2 ++ (run_loop (loop_body f t).1 rest).2) := rfl
  refine ⟨by rw [h1], by rw [h1]; simp, ?_⟩
  rw [h2, h1]

/-- Witness for `write_failure_nonfatal` at a concrete failing write. -/
theorem write_failure_nonfatal_witness :
    ((get_system_stats ⟨QueryResult.ok 5, QueryResult.ok 6⟩).1 =
      (some 5, some 6)) ∧
    ((⟨⟨QueryResult.ok 5, QueryResult.ok 6⟩, 3, some "disk full"⟩ :
        TickInput).writeFail = some "disk full") ∧
    ((loop_body ⟨[Row.header], []⟩
        ⟨⟨QueryResult.ok 5, QueryResult.ok 6⟩, 3, some "disk full"⟩).1 =
          ⟨[Row.header], []⟩ ∧
      LogLine.writeError "disk full" ∈
        (loop_body ⟨[Row.header], []⟩
          ⟨⟨QueryResult.ok 5, QueryResult.ok 6⟩, 3, some "disk full"⟩).2 ∧
      run_loop ⟨[Row.header], []⟩
          [⟨⟨QueryResult.ok 5, QueryResult.ok 6⟩, 3, some "disk full"⟩] =
        ((run_loop ⟨[Row.header], []⟩ []).1,
          (loop_body ⟨[Row.header], []⟩
            ⟨⟨QueryResult.ok 5, QueryResult.ok 6⟩, 3, some "disk full"⟩).2 ++
            (run_loop ⟨[Row.header], []⟩ []).2)) :=
  ⟨by decide, by decide,
   write_failure_nonfatal ⟨[Row.header], []⟩
     ⟨⟨QueryResult.ok 5, QueryResult.ok 6⟩, 3, some "disk full"⟩ [] 5 6
     "disk full" (by decide) (by decide)⟩

/-- C6. Range invariant: under the provider contract that every value a
psutil query returns successfully lies in [0, 100], every cpu and memory
value in the store a run leaves behind (starting from an absent store)
lies in [0.0, 100.0]. -/
theorem range_invariant (ticks : List TickInput) (cause : StopCause)
    (h : ticks.all providerContract = true) :
    ((main none ticks cause).finalFile.disk).all rowInRange = true := by
  rw [main_finalFile, List.all_eq_true]
  intro r hr
  simp only [headerPart, Option.getD_none, List.nil_append] at hr
  simp only [Option.isSome_none, Bool.not_false, Bool.true_or, if_pos,
    List.singleton_append, List.mem_cons] at hr
  rcases hr with rfl | hr
  · rfl
  · obtain ⟨t, ht, c, m, hq, hw, rfl⟩ := mem_rowsWritten r ticks hr
    have hpc : providerContract t = true := List.all_eq_true.mp h t ht
    obtain ⟨hc, hm⟩ := get_system_stats_ok t.psutil c m hq
    simp only [providerContract, hc, hm, Bool.and_eq_true,
      decide_eq_true_eq] at hpc
    simp only [rowInRange, Bool.and_eq_true, decide_eq_true_eq]
    exact hpc

/-- Witness for `range_invariant` at a concrete in-range schedule. -/
theorem range_invariant_witness :
    ([⟨⟨QueryResult.ok 12, QueryResult.ok 45⟩, 1, none⟩,
      ⟨⟨QueryResult.raises "os error", QueryResult.ok 1⟩, 2, none⟩] :
        List TickInput).all providerContract = true ∧
    ((main none
        [⟨⟨QueryResult.ok 12, QueryResult.ok 45⟩, 1, none⟩,
         ⟨⟨QueryResult.raises "os error", QueryResult.ok 1⟩, 2, none⟩]
        StopCause.keyboardInterrupt).finalFile.disk).all rowInRange = true :=
  ⟨by decide,
   range_invariant
     [⟨⟨QueryResult.ok 12, QueryResult.ok 45⟩, 1, none⟩,
      ⟨⟨QueryResult.raises "os error", QueryResult.ok 1⟩, 2, none⟩]
     StopCause.keyboardInterrupt (by decide)⟩

/-- C7. Monotonic append: a run against a fresh store persists exactly the
header followed by the successfully written rows in tick order, and when
the wall clock read at the ticks is non-decreasing, the sequence of
timestamps of the appended rows is non-decreasing in append order (ties
permitted). -/
theorem monotonic_append (ticks : List TickInput) (cause : StopCause)
    (h : List.Sorted (fun a b => a ≤ b) (ticks.map TickInput.now)) :
    (main none ticks cause).finalFile.disk = Row.header :: rowsWritten ticks ∧
    List.Sorted (fun a b => a ≤ b) ((rowsWritten ticks).map rowTimestamp) := by
  constructor
  · rw [main_finalFile]
    simp [headerPart]
  · exact h.sublist (rowsWritten_timestamps_sublist ticks)

/-- Witness for `monotonic_append` at a concrete monotone schedule. -/
theorem monotonic_append_witness :
    List.Sorted (fun a b => a ≤ b)
      (([⟨⟨QueryResult.ok 1, QueryResult.ok 2⟩, 10, none⟩,
         ⟨⟨QueryResult.ok 3, QueryResult.ok 4⟩, 20, none⟩] :
          List TickInput).map TickInput.now) ∧
    ((main none
        [⟨⟨QueryResult.ok 1, QueryResult.ok 2⟩, 10, none⟩,
         ⟨⟨QueryResult.ok 3, QueryResult.ok 4⟩, 20, none⟩]
        StopCause.keyboardInterrupt).finalFile.disk =
      Row.header :: rowsWritten
        [⟨⟨QueryResult.ok 1, QueryResult.ok 2⟩, 10, none⟩,
         ⟨⟨QueryResult.ok 3, QueryResult.ok 4⟩, 20, none⟩] ∧
     List.Sorted (fun a b => a ≤ b)
       ((rowsWritten
         [⟨⟨QueryResult.ok 1, QueryResult.ok 2⟩, 10, none⟩,
          ⟨⟨QueryResult.ok 3, QueryResult.ok 4⟩, 20, none⟩]).map
           rowTimestamp)) :=
  ⟨by decide,
   monotonic_append
     [⟨⟨QueryResult.ok 1, QueryResult.ok 2⟩, 10, none⟩,
      ⟨⟨QueryResult.ok 3, QueryResult.ok 4⟩, 20, none⟩]
     StopCause.keyboardInterrupt (by decide)⟩

/-- C10. All-or-nothing failure indicator: the two components of the
`get_system_stats` result are present or absent together (never exactly
one of them absent), and correspondingly every row a run persists to a
fresh store has both of its value fields present. -/
theorem all_or_nothing (p : Psutil) (ticks : List TickInput)
    (cause : StopCause) :
    ((get_system_stats p).1.1.isSome ↔ (get_system_stats p).1.2.isSome) ∧
    ((main none ticks cause).finalFile.disk).all rowFieldsPresent = true := by
  constructor
  · rcases hc : p.cpu_percent with v | e
    · rcases hm : p.virtual_memory with w | e2 <;>
        simp [get_system_stats, hc, hm]
    · simp [get_system_stats, hc]
  · rw [main_finalFile, List.all_eq_true]
    intro r hr
    simp only [headerPart, Option.getD_none, List.nil_append] at hr
    simp only [Option.isSome_none, Bool.not_false, Bool.true_or, if_pos,
      List.singleton_append, List.mem_cons] at hr
    rcases hr with rfl | hr
    · rfl
    · obtain ⟨t, ht, c, m, hq, hw, rfl⟩ := mem_rowsWritten r ticks hr
      rfl

/-- The diagnostics `get_system_stats` prints never include the
header-written notice. -/
theorem headerWritten_not_mem_stats (p : Psutil) :
    LogLine.headerWritten ∉ (get_system_stats p).2 := by
  rcases hc : p.cpu_percent with v | e
  · rcases hm : p.virtual_memory with w | e2 <;> simp [get_system_stats, hc, hm]
  · simp [get_system_stats, hc]

/-- The loop body never prints the header-written notice. -/
theorem headerWritten_not_mem_body (f : CsvFile) (t : TickInput) :
    LogLine.headerWritten ∉ (loop_body f t).2 := by
  have hs := headerWritten_not_mem_stats t.psutil
  rcases hq : (get_system_stats t.psutil).1 with ⟨_ | c, _ | m⟩ <;>
    rcases hw : t.writeFail with _ | e <;>
      simp [loop_body, write_log_entry, hq, hw] <;>
        simpa using hs

/-- The whole loop never prints the header-written notice. -/
theorem headerWritten_not_mem_loop (f : CsvFile) (ticks : List TickInput) :
    LogLine.headerWritten ∉ (run_loop f ticks).2 := by
  induction ticks generalizing f with
  | nil => simp [run_loop]
  | cons t rest ih =>
    have h2 : (run_loop f (t :: rest)).2 =
        (loop_body f t).2 ++ (run_loop (loop_body f t).1 rest).2 := rfl
    rw [h2]
    intro hmem
    rcases List.mem_append.mp hmem with h | h
    · exact headerWritten_not_mem_body f t h
    · exact ih _ h

/-- The header-written notice appears in a run's operational log exactly
when the store was absent or empty at startup. -/
theorem headerWritten_mem_main (existing : Option (List Row))
    (ticks : List TickInput) (cause : StopCause) :
    (LogLine.headerWritten ∈ (main existing ticks cause).oplog ↔
      (existing = none ∨ existing = some [])) := by
  have hloop := fun f => headerWritten_not_mem_loop f ticks
  rcases cause <;> rcases existing with _ | (_ | ⟨r, l⟩) <;>
    simp [main, List.mem_append, hloop]

/-- Every row the loop writes is a data row. -/
theorem rowsWritten_data (r : Row) (ticks : List TickInput)
    (h : r ∈ rowsWritten ticks) : isData r = true := by
  obtain ⟨t, ht, c, m, hq, hw, rfl⟩ := mem_rowsWritten r ticks h
  rfl

/-- The loop never writes the header row. -/
theorem header_not_mem_rowsWritten (ticks : List TickInput) :
    Row.header ∉ rowsWritten ticks := by
  intro h
  have hd := rowsWritten_data Row.header ticks h
  simp [isData] at hd

/-- A run against a fresh (absent) store leaves exactly the header
followed by the rows it wrote. -/
theorem first_run_disk (ticks : List TickInput) (cause : StopCause) :
    (main none ticks cause).finalFile.disk = Row.header :: rowsWritten ticks := by
  rw [main_finalFile]
  simp [headerPart]

/-- One restart against a well-formed store (one leading header, data rows
after it) preserves that shape: no second header is ever written. -/
theorem restart_step (l ds : List Row)
    (hl : l = Row.header :: ds) (hnd : Row.header ∉ ds)
    (hdata : ∀ r ∈ ds, isData r = true)
    (ticks : List TickInput) (cause : StopCause) :
    ∃ ds2, (main (some l) ticks cause).finalFile.disk = Row.header :: ds2 ∧
      Row.header ∉ ds2 ∧ ∀ r ∈ ds2, isData r = true := by
  refine ⟨ds ++ rowsWritten ticks, ?_, ?_, ?_⟩
  · rw [main_finalFile]
    subst hl
    simp [headerPart]
  · intro h
    rcases List.mem_append.mp h with h | h
    · exact hnd h
    · exact header_not_mem_rowsWritten ticks h
  · intro r hr
    rcases List.mem_append.mp hr with h | h
    · exact hdata r h
    · exact rowsWritten_data r ticks h

/-- Any sequence of restarts against a well-formed store keeps it
well-formed. -/
theorem restart_runs_good (rs : List (List TickInput × StopCause)) :
    ∀ l ds, l = Row.header :: ds → Row.header ∉ ds →
      (∀ r ∈ ds, isData r = true) →
      ∃ ds2, restart_runs (some l) rs = some (Row.header :: ds2) ∧
        Row.header ∉ ds2 ∧ ∀ r ∈ ds2, isData r = true := by
  induction rs with
  | nil =>
    intro l ds hl hnd hdata
    exact ⟨ds, by rw [restart_runs, hl], hnd, hdata⟩
  | cons rc rest ih =>
    intro l ds hl hnd hdata
    obtain ⟨ds2, hdisk, hnd2, hdata2⟩ := restart_step l ds hl hnd hdata rc.1 rc.2
    have hunfold : restart_runs (some l) (rc :: rest) =
        restart_runs (some (main (some l) rc.1 rc.2).finalFile.disk) rest := by
      rcases rc with ⟨t, c⟩
      rfl
    rw [hunfold, hdisk]
    exact ih _ ds2 rfl hnd2 hdata2

/-- C1. Header-once: the header row is written on a process start exactly
when the store was absent or of size zero at startup, and consequently
over any nonempty sequence of process restarts against the same store
(starting absent, never truncated externally) the final store carries the
header row exactly once, before all data rows. -/
theorem header_once (existing : Option (List Row)) (ticks : List TickInput)
    (cause : StopCause) (rs : List (List TickInput × StopCause))
    (hrs : rs ≠ []) :
    (LogLine.headerWritten ∈ (main existing ticks cause).oplog ↔
      (existing = none ∨ existing = some [])) ∧
    ∃ ds, restart_runs none rs = some (Row.header :: ds) ∧
      Row.header ∉ ds ∧ ∀ r ∈ ds, isData r = true := by
  refine ⟨headerWritten_mem_main existing ticks cause, ?_⟩
  rcases rs with _ | ⟨⟨t0, c0⟩, rest⟩
  · exact absurd rfl hrs
  · have h0 : restart_runs none ((t0, c0) :: rest) =
        restart_runs (some (main none t0 c0).finalFile.disk) rest := rfl
    rw [h0, first_run_disk]
    exact restart_runs_good rest _ (rowsWritten t0) rfl
      (header_not_mem_rowsWritten t0)
      (fun r hr => rowsWritten_data r t0 hr)

/-- Witness for `header_once` at a concrete one-restart sequence. -/
theorem header_once_witness :
    ([(([] : List TickInput), StopCause.keyboardInterrupt)] ≠ []) ∧
    ((LogLine.headerWritten ∈
        (main none [] StopCause.keyboardInterrupt).oplog ↔
      ((none : Option (List Row)) = none ∨
        (none : Option (List Row)) = some [])) ∧
    ∃ ds, restart_runs none
        [(([] : List TickInput), StopCause.keyboardInterrupt)] =
          some (Row.header :: ds) ∧
      Row.header ∉ ds ∧ ∀ r ∈ ds, isData r = true) :=
  ⟨by decide,
   header_once none [] StopCause.keyboardInterrupt
     [(([] : List TickInput), StopCause.keyboardInterrupt)] (by decide)⟩

end Watcher
